import Mathlib

/-!
Shallow embedding of the MAX6955 LED display driver (`src/src/lib.rs`).

Bytes are `Nat` values below 256; the external I2C transport (an
`embedded-hal` `Write`/`WriteRead` implementation) is modelled by `SimBus`,
a deterministic machine that records every attempted transaction, serves
register reads from a register file updated by the single-register writes,
and can inject a transport error into any transaction.  Rust panics
(array index out of bounds; the `assert!` inside the bit_field crate's
`set_bit`) are modelled by the `DriverError.panicked` outcome.
-/

/-- Register addresses, from `enum Register` in `src/src/lib.rs`
(Table 7 of the datasheet). -/
inductive Register where
  | NoOp | DecodeMode | GlobalIntensity | ScanLimit | Configuration
  | GpioData | PortConfiguration | DisplayTest
  | KeyAMaskDebounce | KeyBMaskDebounce | KeyCMaskDebounce | KeyDMaskDebounce
  | DigitType | KeyBPressed | KeyCPressed | KeyDPressed
  | Intensity10 | Intensity32 | Intensity54 | Intensity76
  | Intensity10a | Intensity32a | Intensity54a | Intensity76a
  | Digit0Plane0 | Digit1Plane0 | Digit2Plane0 | Digit3Plane0
  | Digit4Plane0 | Digit5Plane0 | Digit6Plane0 | Digit7Plane0
  | Digit0Plane1 | Digit1Plane1 | Digit2Plane1 | Digit3Plane1
  | Digit4Plane1 | Digit5Plane1 | Digit6Plane1 | Digit7Plane1
  deriving DecidableEq

/-- `Register::addr`: the discriminant value of each variant. -/
def Register.addr : Register → Nat
  | .NoOp => 0x00
  | .DecodeMode => 0x01
  | .GlobalIntensity => 0x02
  | .ScanLimit => 0x03
  | .Configuration => 0x04
  | .GpioData => 0x05
  | .PortConfiguration => 0x06
  | .DisplayTest => 0x07
  | .KeyAMaskDebounce => 0x08
  | .KeyBMaskDebounce => 0x09
  | .KeyCMaskDebounce => 0x0A
  | .KeyDMaskDebounce => 0x0B
  | .DigitType => 0x0C
  | .KeyBPressed => 0x0D
  | .KeyCPressed => 0x0E
  | .KeyDPressed => 0x0F
  | .Intensity10 => 0x10
  | .Intensity32 => 0x11
  | .Intensity54 => 0x12
  | .Intensity76 => 0x13
  | .Intensity10a => 0x14
  | .Intensity32a => 0x15
  | .Intensity54a => 0x16
  | .Intensity76a => 0x17
  | .Digit0Plane0 => 0x20
  | .Digit1Plane0 => 0x21
  | .Digit2Plane0 => 0x22
  | .Digit3Plane0 => 0x23
  | .Digit4Plane0 => 0x24
  | .Digit5Plane0 => 0x25
  | .Digit6Plane0 => 0x26
  | .Digit7Plane0 => 0x27
  | .Digit0Plane1 => 0x40
  | .Digit1Plane1 => 0x41
  | .Digit2Plane1 => 0x42
  | .Digit3Plane1 => 0x43
  | .Digit4Plane1 => 0x44
  | .Digit5Plane1 => 0x45
  | .Digit6Plane1 => 0x46
  | .Digit7Plane1 => 0x47

/-- Configuration register bit positions, from `enum ConfigBitFlag`
(Table 17 of the datasheet). -/
inductive ConfigBitFlag where
  | Shutdown | BlinkRate | Blink | BlinkTiming | ClearDigit | Intensity | BlinkPhase
  deriving DecidableEq

/-- `ConfigBitFlag::value`: the discriminant (usize) of each variant. -/
def ConfigBitFlag.value : ConfigBitFlag → Nat
  | .Shutdown => 0x00
  | .BlinkRate => 0x02
  | .Blink => 0x03
  | .BlinkTiming => 0x04
  | .ClearDigit => 0x05
  | .Intensity => 0x06
  | .BlinkPhase => 0x07

/-- Display digit configuration, from `enum DigitType` (Table 14). -/
inductive DigitType where
  | Seg7_16 | D0_14 | D0D2_14 | Seg14
  deriving DecidableEq

/-- `DigitType::value`. -/
def DigitType.value : DigitType → Nat
  | .Seg7_16 => 0x00
  | .D0_14 => 0x01
  | .D0D2_14 => 0x07
  | .Seg14 => 0xFF

/-- Decode mode, from `enum DecodeMode` (Table 15). -/
inductive DecodeMode where
  | NoDecode | HexD0 | HexD0D2 | Hex
  deriving DecidableEq

/-- `DecodeMode::value`. -/
def DecodeMode.value : DecodeMode → Nat
  | .NoDecode => 0x00
  | .HexD0 => 0x01
  | .HexD0D2 => 0x07
  | .Hex => 0xFF

/-- GPIO pin mode, from `enum PinMode`. -/
inductive PinMode where
  | Input | Output
  deriving DecidableEq

/-- Blink mode, from `enum BlinkMode`. -/
inductive BlinkMode where
  | Disable | Enable
  deriving DecidableEq

/-- `BlinkMode::value`: Disable maps to false, Enable to true. -/
def BlinkMode.value : BlinkMode → Bool
  | .Disable => false
  | .Enable => true

/-- Blink rate, from `enum BlinkRate`. -/
inductive BlinkRate where
  | Fast | Slow
  deriving DecidableEq

/-- `BlinkRate::value`: Slow maps to false, Fast to true. -/
def BlinkRate.value : BlinkRate → Bool
  | .Slow => false
  | .Fast => true

/-- The arithmetic of the bit_field crate's `BitField::set_bit` on `u8`:
`b | (1 << bit)` to set the bit, `b & !(1 << bit)` to clear it
(`!` being the 8-bit complement, i.e. xor with 0xFF). -/
def setBitPure (b bit : Nat) (v : Bool) : Nat :=
  if v then b ||| (1 <<< bit) else b &&& (255 ^^^ (1 <<< bit))

/-- `BitField::set_bit` on `u8` from the bit_field crate: it runs
`assert!(bit < 8)` first, so out-of-range bit positions panic; `none`
models that panic. -/
def set_bit (b bit : Nat) (v : Bool) : Option Nat :=
  if bit < 8 then some (setBitPure b bit v) else none

/-- One bus transaction as attempted on the wire: a plain write, or a
combined write-then-read of `len` bytes (the two transport operations of
the embedded-hal `Write`/`WriteRead` traits). -/
inductive Txn where
  | wr (addr : Nat) (bytes : List Nat)
  | wrRd (addr : Nat) (bytes : List Nat) (len : Nat)
  deriving DecidableEq

/-- Slave address a transaction was directed to. -/
def Txn.addr : Txn → Nat
  | .wr a _ => a
  | .wrRd a _ _ => a

/-- Model of the external Bus Transport together with the device it
reaches: a register file `regs` served on reads (a read of a register
returns the value most recently written to it, 0 if never written), a
transcript `log` of every transaction attempted, and per-transaction error
injection: the head of `rdErrs` (resp. `wrErrs`) is consumed by the next
write-then-read (resp. write) transaction, `some e` making it fail with
transport error `e`; an empty list or a `none` head means success. -/
structure SimBus (ε : Type) where
  regs : List (Nat × Nat)
  log : List Txn
  rdErrs : List (Option ε)
  wrErrs : List (Option ε)
  deriving DecidableEq

/-- Read a register of the device register file (0 if never written). -/
def getReg : List (Nat × Nat) → Nat → Nat
  | [], _ => 0
  | (a, v) :: rest, r => if a = r then v else getReg rest r

/-- Update a register of the device register file. -/
def setReg (regs : List (Nat × Nat)) (r v : Nat) : List (Nat × Nat) :=
  (r, v) :: regs

/-- Device response to a write-then-read: for the single-register-address
write `[r]` the device answers with the register's current value followed
by padding (the driver only ever uses the first byte). -/
def readBytes (regs : List (Nat × Nat)) (bs : List Nat) (n : Nat) : List Nat :=
  match bs with
  | [r] => getReg regs r :: List.replicate (n - 1) 0
  | _ => List.replicate n 0

/-- Device-side effect of a successful write: a two-byte payload
`[register, byte]` is a single-register write and updates the register
file; other payload shapes (the 9-byte digit burst) touch only digit
registers, which no claim reads back, so the modelled file is unchanged. -/
def writeEffect (regs : List (Nat × Nat)) (bs : List Nat) : List (Nat × Nat) :=
  match bs with
  | [r, b] => setReg regs r b
  | _ => regs

/-- Transport `write(address, bytes)`: the transaction is always logged
(attempted); it fails iff the next injected write error is `some e`. -/
def simWrite (s : SimBus ε) (a : Nat) (bs : List Nat) :
    Except ε Unit × SimBus ε :=
  let s' : SimBus ε :=
    { s with log := s.log ++ [Txn.wr a bs], wrErrs := s.wrErrs.tail }
  match s.wrErrs.headD none with
  | some e => (Except.error e, s')
  | none => (Except.ok (), { s' with regs := writeEffect s.regs bs })

/-- Transport `write_read(address, bytes, buffer)`: logged, then either the
next injected read error fires or the device answers `readBytes`. -/
def simWriteRead (s : SimBus ε) (a : Nat) (bs : List Nat) (n : Nat) :
    Except ε (List Nat) × SimBus ε :=
  let s' : SimBus ε :=
    { s with log := s.log ++ [Txn.wrRd a bs n], rdErrs := s.rdErrs.tail }
  match s.rdErrs.headD none with
  | some e => (Except.error e, s')
  | none => (Except.ok (readBytes s.regs bs n), s')

/-- The driver struct `Max6955` from `src/src/lib.rs`: the owned i2c
handle and the 7-bit slave address. -/
structure Max6955 (ε : Type) where
  i2c : SimBus ε
  addr : Nat
  deriving DecidableEq

/-- `DEFAULT_SLAVE_ADDR`. -/
def DEFAULT_SLAVE_ADDR : Nat := 0x60

/-- Outcome of one driver call: `bus e` is the transport error `E` the
Rust function returns verbatim; `panicked` models a Rust panic (the
out-of-bounds array write in `write_str`, or the bit_field assertion in
`set_bit`), which aborts before any value is returned. -/
inductive DriverError (ε : Type) where
  | bus (e : ε)
  | panicked
  deriving DecidableEq

/-- `Max6955::new`: bind the transport, default address 0x60. -/
def Max6955.new (i2c : SimBus ε) : Except ε (Max6955 ε) :=
  Except.ok { i2c := i2c, addr := DEFAULT_SLAVE_ADDR }

/-- `Max6955::with_address`: bind the transport with a caller-supplied
address; no validation. -/
def Max6955.with_address (i2c : SimBus ε) (addr : Nat) : Except ε (Max6955 ε) :=
  Except.ok { i2c := i2c, addr := addr }

/-- `Max6955::set_address`: overwrite the stored address, no I/O. -/
def Max6955.set_address (d : Max6955 ε) (addr : Nat) : Max6955 ε :=
  { d with addr := addr }

/-- `Max6955::write_register`: `self.i2c.write(self.addr, &[reg.addr(), byte])`. -/
def write_register (d : Max6955 ε) (reg : Register) (byte : Nat) :
    Except (DriverError ε) Unit × Max6955 ε :=
  match simWrite d.i2c d.addr [reg.addr, byte] with
  | (Except.ok u, s) => (Except.ok u, { d with i2c := s })
  | (Except.error e, s) => (Except.error (DriverError.bus e), { d with i2c := s })

/-- `Max6955::read_registers`: a combined write-then-read of the register
address and an 8-byte buffer. -/
def read_registers (d : Max6955 ε) (reg : Register) :
    Except (DriverError ε) (List Nat) × Max6955 ε :=
  match simWriteRead d.i2c d.addr [reg.addr] 8 with
  | (Except.ok l, s) => (Except.ok l, { d with i2c := s })
  | (Except.error e, s) => (Except.error (DriverError.bus e), { d with i2c := s })

/-- `Max6955::read_register`: read 8 bytes into a zero-initialised buffer
and return `buffer[0]` (hence `headD 0`). -/
def read_register (d : Max6955 ε) (reg : Register) :
    Except (DriverError ε) Nat × Max6955 ε :=
  match read_registers d reg with
  | (Except.ok buffer, d') => (Except.ok (buffer.headD 0), d')
  | (Except.error e, d') => (Except.error e, d')

/-- `Max6955::set_configuration_bit`: read Configuration, `set_bit` the
given flag position, write the byte back. -/
def set_configuration_bit (d : Max6955 ε) (bit : ConfigBitFlag) (v : Bool) :
    Except (DriverError ε) Unit × Max6955 ε :=
  match read_register d Register.Configuration with
  | (Except.error e, d') => (Except.error e, d')
  | (Except.ok config, d') =>
      match set_bit config bit.value v with
      | none => (Except.error DriverError.panicked, d')
      | some c => write_register d' Register.Configuration c

/-- `Max6955::set_global_intensity`: one register write, then `Ok(())`. -/
def set_global_intensity (d : Max6955 ε) (intensity : Nat) :
    Except (DriverError ε) Unit × Max6955 ε :=
  match write_register d Register.GlobalIntensity intensity with
  | (Except.error e, d') => (Except.error e, d')
  | (Except.ok _, d') => (Except.ok (), d')

/-- `Max6955::set_blink`: set the Blink bit to the mode's value, then the
BlinkRate bit to the rate's value (two read-modify-write cycles). -/
def set_blink (d : Max6955 ε) (mode : BlinkMode) (rate : BlinkRate) :
    Except (DriverError ε) Unit × Max6955 ε :=
  match set_configuration_bit d ConfigBitFlag.Blink mode.value with
  | (Except.error e, d') => (Except.error e, d')
  | (Except.ok _, d') => set_configuration_bit d' ConfigBitFlag.BlinkRate rate.value

/-- `Max6955::powerup`: set the Shutdown bit to true. -/
def powerup (d : Max6955 ε) : Except (DriverError ε) Unit × Max6955 ε :=
  set_configuration_bit d ConfigBitFlag.Shutdown true

/-- `Max6955::shutdown`: set the Shutdown bit to false. -/
def shutdown (d : Max6955 ε) : Except (DriverError ε) Unit × Max6955 ε :=
  set_configuration_bit d ConfigBitFlag.Shutdown false

/-- `Max6955::set_digit_type`: one register write. -/
def set_digit_type (d : Max6955 ε) (digit_type : DigitType) :
    Except (DriverError ε) Unit × Max6955 ε :=
  write_register d Register.DigitType digit_type.value

/-- `Max6955::set_pin_mode`: read PortConfiguration, `set_bit` position
`port` (true for Input, false for Output), write the byte back.  No
bounds check on `port` is performed by the driver itself; `set_bit`
asserts `port < 8`. -/
def set_pin_mode (d : Max6955 ε) (port : Nat) (pin_mode : PinMode) :
    Except (DriverError ε) Unit × Max6955 ε :=
  match read_register d Register.PortConfiguration with
  | (Except.error e, d') => (Except.error e, d')
  | (Except.ok port_config, d') =>
      match pin_mode with
      | PinMode.Input =>
          match set_bit port_config port true with
          | none => (Except.error DriverError.panicked, d')
          | some config => write_register d' Register.PortConfiguration config
      | PinMode.Output =>
          match set_bit port_config port false with
          | none => (Except.error DriverError.panicked, d')
          | some config => write_register d' Register.PortConfiguration config

/-- `Max6955::set_decode_mode`: one register write. -/
def set_decode_mode (d : Max6955 ε) (mode : DecodeMode) :
    Except (DriverError ε) Unit × Max6955 ε :=
  write_register d Register.DecodeMode mode.value

/-- `Max6955::test`: write 0x01 (enable) or 0x00 (disable) to DisplayTest. -/
def test (d : Max6955 ε) (enable : Bool) :
    Except (DriverError ε) Unit × Max6955 ε :=
  if enable then write_register d Register.DisplayTest 0x01
  else write_register d Register.DisplayTest 0x00

/-- The character translation inside `write_str`'s loop: printable ASCII
(`' '..='~'`, i.e. 0x20-0x7E) passes through as its code point (`c as u8`),
anything else becomes a space. -/
def encodeChar (c : Char) : Nat :=
  if 0x20 ≤ c.toNat ∧ c.toNat ≤ 0x7E then c.toNat % 256 else 0x20

/-- The `for (i, c) in text.chars().enumerate()` loop of `write_str`:
`row[i + 1] = ...` on the 9-byte array; an index beyond the array bound is
a Rust panic, modelled by `none`. -/
def writeLoop (row : List Nat) (i : Nat) : List Char → Option (List Nat)
  | [] => some row
  | c :: cs =>
      if i + 1 < row.length then writeLoop (row.set (i + 1) (encodeChar c)) (i + 1) cs
      else none

/-- `Max6955::write_str`: build the 9-byte row (`[b' '; 9]`, byte 0 set to
the Digit0Plane0 address, the loop filling bytes from the text), then send
it as one write transaction. -/
def write_str (d : Max6955 ε) (text : List Char) :
    Except (DriverError ε) Unit × Max6955 ε :=
  match writeLoop ((List.replicate 9 0x20).set 0 Register.Digit0Plane0.addr) 0 text with
  | none => (Except.error DriverError.panicked, d)
  | some row =>
      match simWrite d.i2c d.addr row with
      | (Except.ok u, s) => (Except.ok u, { d with i2c := s })
      | (Except.error e, s) => (Except.error (DriverError.bus e), { d with i2c := s })

/-- `Max6955::clear_display`: `write_str("")`. -/
def clear_display (d : Max6955 ε) : Except (DriverError ε) Unit × Max6955 ε :=
  write_str d []

/-- The boolean the Rust `match pin_mode` passes to `set_bit` in
`set_pin_mode`: Input sets the bit, Output clears it. -/
def pinBit : PinMode → Bool
  | .Input => true
  | .Output => false

/-- Frame property relating the driver state before a call to the state
after it: the stored address is unchanged and the transcript grew only by
transactions directed to that stored address. -/
def FrameStep (d q : Max6955 ε) : Prop :=
  q.addr = d.addr ∧
    ∃ ext, q.i2c.log = d.i2c.log ++ ext ∧ ∀ t ∈ ext, Txn.addr t = d.addr

/-- A concrete device for witnesses: default address 0x60, empty
transcript, every register reading 0x00, no injected errors; transport
error type `Nat`. -/
def d0 : Max6955 Nat := ⟨⟨[], [], [], []⟩, 0x60⟩

/-- A concrete device whose PortConfiguration register holds 0x04. -/
def dPort : Max6955 Nat := ⟨⟨[(0x06, 0x04)], [], [], []⟩, 0x60⟩

/-! ### Helper lemmas -/

theorem simWrite_log (s : SimBus ε) (a : Nat) (bs : List Nat) :
    (simWrite s a bs).2.log = s.log ++ [Txn.wr a bs] := by
  unfold simWrite
  cases h : s.wrErrs.headD none <;> simp [h]

theorem simWriteRead_log (s : SimBus ε) (a : Nat) (bs : List Nat) (n : Nat) :
    (simWriteRead s a bs n).2.log = s.log ++ [Txn.wrRd a bs n] := by
  unfold simWriteRead
  cases h : s.rdErrs.headD none <;> simp [h]

theorem getReg_setReg_same (regs : List (Nat × Nat)) (r v : Nat) :
    getReg (setReg regs r v) r = v := by
  simp [getReg, setReg]

theorem writeLoop_length : ∀ (cs : List Char) (row : List Nat) (i : Nat) (row' : List Nat),
    writeLoop row i cs = some row' → row'.length = row.length := by
  intro cs
  induction cs with
  | nil =>
    intro row i row' h
    simp [writeLoop] at h
    subst h; rfl
  | cons c cs ih =>
    intro row i row' h
    unfold writeLoop at h
    split at h
    · have := ih _ _ _ h
      simpa using this
    · cases h

theorem writeLoop_some : ∀ (cs : List Char) (row : List Nat) (i : Nat),
    row.length = 9 → i + cs.length ≤ 8 →
    ∃ row', writeLoop row i cs = some row' ∧
      (∀ j, j ≤ i → row'[j]? = row[j]?) ∧
      (∀ k, (hk : k < cs.length) → row'[i + 1 + k]? = some (encodeChar (cs.get ⟨k, hk⟩))) ∧
      (∀ j, i + cs.length < j → row'[j]? = row[j]?) := by
  intro cs
  induction cs with
  | nil =>
    intro row i hlen hle
    exact ⟨row, rfl, fun j _ => rfl, fun k hk => absurd hk (by simp), fun j _ => rfl⟩
  | cons c cs ih =>
    intro row i hlen hle
    have hcond : i + 1 < row.length := by rw [hlen]; simp at hle; omega
    have hlen2 : (row.set (i + 1) (encodeChar c)).length = 9 := by simp [hlen]
    have hle2 : (i + 1) + cs.length ≤ 8 := by simp at hle; omega
    obtain ⟨row', hrun, hpre, hmid, hpost⟩ := ih (row.set (i + 1) (encodeChar c)) (i + 1) hlen2 hle2
    refine ⟨row', ?_, ?_, ?_, ?_⟩
    · unfold writeLoop
      rw [if_pos hcond]
      exact hrun
    · intro j hj
      rw [hpre j (by omega), List.getElem?_set_ne (by omega)]
    · intro k hk
      cases k with
      | zero =>
        have h1 : row'[i + 1]? = (row.set (i + 1) (encodeChar c))[i + 1]? := hpre (i + 1) (Nat.le_refl _)
        have h2 : (row.set (i + 1) (encodeChar c))[i + 1]? = some (encodeChar c) :=
          List.getElem?_set_self (by omega)
        show row'[i + 1 + 0]? = some (encodeChar c)
        rw [show i + 1 + 0 = i + 1 from rfl, h1, h2]
      | succ k' =>
        have hk' : k' < cs.length := by simpa using hk
        have h2 := hmid k' hk'
        rw [show i + 1 + (k' + 1) = (i + 1) + 1 + k' from by omega, h2]
        rfl
    · intro j hj
      have hj' : i + (cs.length + 1) < j := by simpa using hj
      rw [hpost j (by omega), List.getElem?_set_ne (by omega)]

theorem writeLoop_oob : ∀ (cs : List Char) (row : List Nat) (i : Nat),
    row.length = 9 → i ≤ 8 → 9 ≤ i + cs.length →
    writeLoop row i cs = none := by
  intro cs
  induction cs with
  | nil =>
    intro row i h1 h2 h3
    exfalso; simp at h3; omega
  | cons c cs ih =>
    intro row i h1 h2 h3
    unfold writeLoop
    by_cases hc : i + 1 < row.length
    · rw [if_pos hc]
      exact ih _ (i + 1) (by simp [h1]) (by rw [h1] at hc; omega) (by simp at h3; omega)
    · rw [if_neg hc]

theorem encodeChar_eq (c : Char) :
    encodeChar c = if 0x20 ≤ c.toNat ∧ c.toNat ≤ 0x7E then c.toNat else 0x20 := by
  unfold encodeChar
  split
  · next hc => exact Nat.mod_eq_of_lt (by omega)
  · rfl

theorem initRow_getq (j : Nat) (h : j < 9) :
    ((List.replicate 9 0x20).set 0 Register.Digit0Plane0.addr)[j]? = some 0x20 := by
  interval_cases j <;> rfl

theorem write_str_state (d : Max6955 ε) (text : List Char) (row : List Nat)
    (h : writeLoop ((List.replicate 9 0x20).set 0 Register.Digit0Plane0.addr) 0 text = some row) :
    (write_str d text).2.i2c.log = d.i2c.log ++ [Txn.wr d.addr row] ∧
    (write_str d text).2.addr = d.addr := by
  unfold write_str
  simp only [h]
  rcases hw : simWrite d.i2c d.addr row with ⟨r, s⟩
  have hlog := simWrite_log d.i2c d.addr row
  rw [hw] at hlog
  cases r <;> exact ⟨hlog, rfl⟩

theorem read_register_ok (regs : List (Nat × Nat)) (log : List Txn) (addr : Nat) (reg : Register) :
    read_register (⟨⟨regs, log, [], []⟩, addr⟩ : Max6955 ε) reg =
      (Except.ok (getReg regs reg.addr),
        ⟨⟨regs, log ++ [Txn.wrRd addr [reg.addr] 8], [], []⟩, addr⟩) := rfl

theorem set_configuration_bit_ok (regs : List (Nat × Nat)) (log : List Txn) (addr : Nat)
    (bit : ConfigBitFlag) (v : Bool) :
    set_configuration_bit (⟨⟨regs, log, [], []⟩, addr⟩ : Max6955 ε) bit v =
      (Except.ok (),
        ⟨⟨setReg regs 0x04 (setBitPure (getReg regs 0x04) bit.value v),
          log ++ [Txn.wrRd addr [0x04] 8,
            Txn.wr addr [0x04, setBitPure (getReg regs 0x04) bit.value v]],
          [], []⟩, addr⟩) := by
  cases bit <;>
    simp [set_configuration_bit, read_register_ok, set_bit, write_register, simWrite,
      writeEffect, ConfigBitFlag.value, setReg, Register.addr]

theorem set_bit_oob (b port : Nat) (v : Bool) (hp : 8 ≤ port) : set_bit b port v = none := by
  unfold set_bit
  rw [if_neg (by omega)]

theorem set_pin_mode_ok (regs : List (Nat × Nat)) (log : List Txn) (addr : Nat)
    (port : Nat) (pm : PinMode) (hp : port < 8) :
    set_pin_mode (⟨⟨regs, log, [], []⟩, addr⟩ : Max6955 ε) port pm =
      (Except.ok (),
        ⟨⟨setReg regs 0x06 (setBitPure (getReg regs 0x06) port (pinBit pm)),
          log ++ [Txn.wrRd addr [0x06] 8,
            Txn.wr addr [0x06, setBitPure (getReg regs 0x06) port (pinBit pm)]],
          [], []⟩, addr⟩) := by
  cases pm <;>
    simp [set_pin_mode, read_register_ok, set_bit, hp, write_register, simWrite,
      writeEffect, pinBit, setReg, Register.addr]

theorem set_pin_mode_oob (regs : List (Nat × Nat)) (log : List Txn) (addr : Nat)
    (port : Nat) (pm : PinMode) (hp : 8 ≤ port) :
    set_pin_mode (⟨⟨regs, log, [], []⟩, addr⟩ : Max6955 ε) port pm =
      (Except.error DriverError.panicked,
        ⟨⟨regs, log ++ [Txn.wrRd addr [0x06] 8], [], []⟩, addr⟩) := by
  cases pm <;> simp [set_pin_mode, read_register_ok, set_bit_oob _ _ _ hp, Register.addr]

theorem testBit_255 (j : Nat) (h : j < 8) : Nat.testBit 255 j = true := by
  interval_cases j <;> rfl

theorem setBitPure_testBit_self (b i : Nat) (v : Bool) (h : i < 8) :
    Nat.testBit (setBitPure b i v) i = v := by
  unfold setBitPure
  cases v
  · simp [Nat.testBit_land, Nat.testBit_xor, Nat.one_shiftLeft,
      testBit_255 i h, Nat.testBit_two_pow_self]
  · simp [Nat.testBit_lor, Nat.one_shiftLeft, Nat.testBit_two_pow_self]

theorem setBitPure_testBit_other (b i j : Nat) (v : Bool) (hj : j < 8) (hne : j ≠ i) :
    Nat.testBit (setBitPure b i v) j = Nat.testBit b j := by
  unfold setBitPure
  cases v
  · simp [Nat.testBit_land, Nat.testBit_xor, Nat.one_shiftLeft,
      testBit_255 j hj, Nat.testBit_two_pow_of_ne (fun h => hne h.symm)]
  · simp [Nat.testBit_lor, Nat.one_shiftLeft,
      Nat.testBit_two_pow_of_ne (fun h => hne h.symm)]

theorem read_register_fail (regs : List (Nat × Nat)) (log : List Txn)
    (errs wrs : List (Option ε)) (addr : Nat) (e : ε) (reg : Register) :
    read_register (⟨⟨regs, log, some e :: errs, wrs⟩, addr⟩ : Max6955 ε) reg =
      (Except.error (DriverError.bus e),
        ⟨⟨regs, log ++ [Txn.wrRd addr [reg.addr] 8], errs, wrs⟩, addr⟩) := rfl

theorem set_configuration_bit_fail (regs : List (Nat × Nat)) (log : List Txn)
    (errs wrs : List (Option ε)) (addr : Nat) (e : ε) (bit : ConfigBitFlag) (v : Bool) :
    set_configuration_bit (⟨⟨regs, log, some e :: errs, wrs⟩, addr⟩ : Max6955 ε) bit v =
      (Except.error (DriverError.bus e),
        ⟨⟨regs, log ++ [Txn.wrRd addr [0x04] 8], errs, wrs⟩, addr⟩) := by
  simp [set_configuration_bit, read_register_fail, Register.addr]

theorem set_pin_mode_fail (regs : List (Nat × Nat)) (log : List Txn)
    (errs wrs : List (Option ε)) (addr : Nat) (e : ε) (port : Nat) (pm : PinMode) :
    set_pin_mode (⟨⟨regs, log, some e :: errs, wrs⟩, addr⟩ : Max6955 ε) port pm =
      (Except.error (DriverError.bus e),
        ⟨⟨regs, log ++ [Txn.wrRd addr [0x06] 8], errs, wrs⟩, addr⟩) := by
  cases pm <;> simp [set_pin_mode, read_register_fail, Register.addr]

theorem read_register_ok2 (regs : List (Nat × Nat)) (log : List Txn)
    (errs wrs : List (Option ε)) (addr : Nat) (reg : Register) :
    read_register (⟨⟨regs, log, none :: errs, wrs⟩, addr⟩ : Max6955 ε) reg =
      (Except.ok (getReg regs reg.addr),
        ⟨⟨regs, log ++ [Txn.wrRd addr [reg.addr] 8], errs, wrs⟩, addr⟩) := rfl

theorem set_configuration_bit_ok2 (regs : List (Nat × Nat)) (log : List Txn)
    (errs : List (Option ε)) (addr : Nat) (bit : ConfigBitFlag) (v : Bool) :
    set_configuration_bit (⟨⟨regs, log, none :: errs, []⟩, addr⟩ : Max6955 ε) bit v =
      (Except.ok (),
        ⟨⟨setReg regs 0x04 (setBitPure (getReg regs 0x04) bit.value v),
          log ++ [Txn.wrRd addr [0x04] 8,
            Txn.wr addr [0x04, setBitPure (getReg regs 0x04) bit.value v]],
          errs, []⟩, addr⟩) := by
  cases bit <;>
    simp [set_configuration_bit, read_register_ok2, set_bit, write_register, simWrite,
      writeEffect, ConfigBitFlag.value, setReg, Register.addr]

theorem snd_set_global_intensity (d : Max6955 ε) (v : Nat) :
    (set_global_intensity d v).2 = (write_register d Register.GlobalIntensity v).2 := by
  unfold set_global_intensity
  rcases h : write_register d Register.GlobalIntensity v with ⟨r, d'⟩
  cases r <;> rfl

theorem read_register_snd (d : Max6955 ε) (reg : Register) :
    (read_register d reg).2 = (read_registers d reg).2 := by
  unfold read_register
  rcases h : read_registers d reg with ⟨r, d'⟩
  cases r <;> rfl

theorem frameStep_rfl (d : Max6955 ε) : FrameStep d d :=
  ⟨rfl, [], by simp, by simp⟩

theorem frameStep_trans {d q r : Max6955 ε} (h1 : FrameStep d q) (h2 : FrameStep q r) :
    FrameStep d r := by
  obtain ⟨ha1, ext1, hl1, hm1⟩ := h1
  obtain ⟨ha2, ext2, hl2, hm2⟩ := h2
  refine ⟨ha2.trans ha1, ext1 ++ ext2, ?_, ?_⟩
  · rw [hl2, hl1, List.append_assoc]
  · intro t ht
    rcases List.mem_append.mp ht with h | h
    · exact hm1 t h
    · exact (hm2 t h).trans ha1

theorem frameStep_write_register (d : Max6955 ε) (reg : Register) (b : Nat) :
    FrameStep d (write_register d reg b).2 := by
  unfold write_register
  rcases hw : simWrite d.i2c d.addr [reg.addr, b] with ⟨r, s⟩
  have hlog := simWrite_log d.i2c d.addr [reg.addr, b]
  rw [hw] at hlog
  cases r <;>
    exact ⟨rfl, [Txn.wr d.addr [reg.addr, b]], hlog, by simp [Txn.addr]⟩

theorem frameStep_read_registers (d : Max6955 ε) (reg : Register) :
    FrameStep d (read_registers d reg).2 := by
  unfold read_registers
  rcases hw : simWriteRead d.i2c d.addr [reg.addr] 8 with ⟨r, s⟩
  have hlog := simWriteRead_log d.i2c d.addr [reg.addr] 8
  rw [hw] at hlog
  cases r <;>
    exact ⟨rfl, [Txn.wrRd d.addr [reg.addr] 8], hlog, by simp [Txn.addr]⟩

theorem frameStep_read_register (d : Max6955 ε) (reg : Register) :
    FrameStep d (read_register d reg).2 := by
  rw [read_register_snd]
  exact frameStep_read_registers d reg

theorem frameStep_set_configuration_bit (d : Max6955 ε) (bit : ConfigBitFlag) (v : Bool) :
    FrameStep d (set_configuration_bit d bit v).2 := by
  have hrr := frameStep_read_register d Register.Configuration
  unfold set_configuration_bit
  split
  next e d' heq =>
    rw [heq] at hrr
    exact hrr
  next config d' heq =>
    rw [heq] at hrr
    cases hsb : set_bit config bit.value v with
    | none => exact hrr
    | some c =>
        exact frameStep_trans hrr (frameStep_write_register d' Register.Configuration c)

theorem frameStep_set_pin_mode (d : Max6955 ε) (port : Nat) (pm : PinMode) :
    FrameStep d (set_pin_mode d port pm).2 := by
  have hrr := frameStep_read_register d Register.PortConfiguration
  unfold set_pin_mode
  split
  next e d' heq =>
    rw [heq] at hrr
    exact hrr
  next pc d' heq =>
    rw [heq] at hrr
    cases pm with
    | Input =>
        cases hsb : set_bit pc port true with
        | none => exact hrr
        | some c =>
            exact frameStep_trans hrr (frameStep_write_register d' Register.PortConfiguration c)
    | Output =>
        cases hsb : set_bit pc port false with
        | none => exact hrr
        | some c =>
            exact frameStep_trans hrr (frameStep_write_register d' Register.PortConfiguration c)

theorem frameStep_set_blink (d : Max6955 ε) (mode : BlinkMode) (rate : BlinkRate) :
    FrameStep d (set_blink d mode rate).2 := by
  have h1 := frameStep_set_configuration_bit d ConfigBitFlag.Blink mode.value
  unfold set_blink
  split
  next e d' heq =>
    rw [heq] at h1
    exact h1
  next u d' heq =>
    rw [heq] at h1
    exact frameStep_trans h1
      (frameStep_set_configuration_bit d' ConfigBitFlag.BlinkRate rate.value)

theorem frameStep_test (d : Max6955 ε) (enable : Bool) :
    FrameStep d (test d enable).2 := by
  cases enable with
  | true => exact frameStep_write_register d Register.DisplayTest 0x01
  | false => exact frameStep_write_register d Register.DisplayTest 0x00

theorem frameStep_write_str (d : Max6955 ε) (text : List Char) :
    FrameStep d (write_str d text).2 := by
  cases h : writeLoop ((List.replicate 9 0x20).set 0 Register.Digit0Plane0.addr) 0 text with
  | none =>
      unfold write_str
      rw [h]
      exact frameStep_rfl d
  | some row =>
      obtain ⟨hlog, haddr⟩ := write_str_state d text row h
      exact ⟨haddr, [Txn.wr d.addr row], hlog, by simp [Txn.addr]⟩

/-! ### Claim theorems -/

/-- Claim C1: for every input text of length at most 8 characters, `write_str`
builds a 9-byte buffer whose byte 0 is the Digit0Plane0 register address
(0x20), whose byte i+1 for each input character at position i is the
character's code point if that code point lies in 0x20-0x7E inclusive and
0x20 otherwise, and whose remaining trailing bytes are 0x20; the buffer is
sent as a single write transaction to the stored device address. -/
theorem write_str_builds_buffer (d : Max6955 ε) (text : List Char) (h : text.length ≤ 8) :
    ∃ row,
      (write_str d text).2.i2c.log = d.i2c.log ++ [Txn.wr d.addr row] ∧
      (write_str d text).2.addr = d.addr ∧
      row.length = 9 ∧
      row[0]? = some 0x20 ∧
      (∀ i, (hi : i < text.length) →
        row[i + 1]? =
          some (if 0x20 ≤ (text.get ⟨i, hi⟩).toNat ∧ (text.get ⟨i, hi⟩).toNat ≤ 0x7E
                then (text.get ⟨i, hi⟩).toNat else 0x20)) ∧
      (∀ i, text.length ≤ i → i < 8 → row[i + 1]? = some 0x20) := by
  obtain ⟨row, hrun, hpre, hmid, hpost⟩ :=
    writeLoop_some text ((List.replicate 9 0x20).set 0 Register.Digit0Plane0.addr) 0 rfl
      (by omega)
  obtain ⟨hlog, haddr⟩ := write_str_state d text row hrun
  refine ⟨row, hlog, haddr, ?_, ?_, ?_, ?_⟩
  · exact (writeLoop_length text _ 0 row hrun).trans rfl
  · rw [hpre 0 (Nat.le_refl 0), initRow_getq 0 (by omega)]
  · intro i hi
    have hm := hmid i hi
    rw [encodeChar_eq] at hm
    rw [show i + 1 = 0 + 1 + i from by omega]
    exact hm
  · intro i hle hlt
    rw [hpost (i + 1) (by omega), initRow_getq (i + 1) (by omega)]

/-- Witness for C1: the three-character text `['H', 'I', BEL]` (the last a
control character, replaced by a space) against the concrete device `d0`. -/
theorem write_str_builds_buffer_witness :
    (['H', 'I', '\x07'] : List Char).length ≤ 8 ∧
    ∃ row,
      (write_str d0 ['H', 'I', '\x07']).2.i2c.log = d0.i2c.log ++ [Txn.wr d0.addr row] ∧
      (write_str d0 ['H', 'I', '\x07']).2.addr = d0.addr ∧
      row.length = 9 ∧
      row[0]? = some 0x20 ∧
      (∀ i, (hi : i < (['H', 'I', '\x07'] : List Char).length) →
        row[i + 1]? =
          some (if 0x20 ≤ ((['H', 'I', '\x07'] : List Char).get ⟨i, hi⟩).toNat ∧
                    ((['H', 'I', '\x07'] : List Char).get ⟨i, hi⟩).toNat ≤ 0x7E
                then ((['H', 'I', '\x07'] : List Char).get ⟨i, hi⟩).toNat else 0x20)) ∧
      (∀ i, (['H', 'I', '\x07'] : List Char).length ≤ i → i < 8 → row[i + 1]? = some 0x20) :=
  ⟨by decide, write_str_builds_buffer d0 ['H', 'I', '\x07'] (by decide)⟩

/-- Claim C2 counterexample: for the nine-character text "123456789" the code
does not truncate and transmit the first 8 characters: the loop writes
`row[9]` on the 9-byte array, a Rust panic, and no bus transaction at all is
issued (the transcript stays empty). -/
theorem write_str_long_counterexample :
    (write_str d0 ['1', '2', '3', '4', '5', '6', '7', '8', '9']).1 =
      Except.error DriverError.panicked ∧
    (write_str d0 ['1', '2', '3', '4', '5', '6', '7', '8', '9']).2.i2c.log = [] :=
  ⟨rfl, rfl⟩

/-- Claim C2 (amended): for every input text with more than 8 characters,
`write_str` panics with an out-of-bounds index into its 9-byte buffer while
processing the ninth character, before the bus write is reached: nothing is
transmitted, no transport error is returned, and the driver state is
unchanged. -/
theorem write_str_long_panics (d : Max6955 ε) (text : List Char) (h : 8 < text.length) :
    write_str d text = (Except.error DriverError.panicked, d) := by
  unfold write_str
  rw [writeLoop_oob text ((List.replicate 9 0x20).set 0 Register.Digit0Plane0.addr) 0 rfl
    (by omega) (by omega)]

/-- Witness for the amended C2 at the nine-character text "123456789". -/
theorem write_str_long_panics_witness :
    8 < (['1', '2', '3', '4', '5', '6', '7', '8', '9'] : List Char).length ∧
    write_str d0 ['1', '2', '3', '4', '5', '6', '7', '8', '9'] =
      (Except.error DriverError.panicked, d0) :=
  ⟨by decide, write_str_long_panics d0 ['1', '2', '3', '4', '5', '6', '7', '8', '9'] (by decide)⟩

/-- Claim C3: `set_blink(mode, rate)` performs exactly two independent
read-modify-write cycles on the Configuration register (0x04): it reads,
sets bit 3 (Blink) to the mode's boolean value and writes back, then reads
again, sets bit 2 (BlinkRate) to the rate's boolean value and writes back;
in particular from Configuration 0x00, with each read returning the last
written value, `set_blink(Enable, Fast)` writes 0x08 then 0x0C, leaving the
final byte 0x0C. -/
theorem set_blink_two_rmw_cycles :
    (∀ (ε : Type) (regs : List (Nat × Nat)) (log : List Txn) (addr : Nat)
        (mode : BlinkMode) (rate : BlinkRate),
      set_blink (⟨⟨regs, log, [], []⟩, addr⟩ : Max6955 ε) mode rate =
        (Except.ok (),
          ⟨⟨setReg (setReg regs 0x04 (setBitPure (getReg regs 0x04) 3 mode.value)) 0x04
              (setBitPure (setBitPure (getReg regs 0x04) 3 mode.value) 2 rate.value),
            log ++ [Txn.wrRd addr [0x04] 8,
              Txn.wr addr [0x04, setBitPure (getReg regs 0x04) 3 mode.value],
              Txn.wrRd addr [0x04] 8,
              Txn.wr addr [0x04,
                setBitPure (setBitPure (getReg regs 0x04) 3 mode.value) 2 rate.value]],
            [], []⟩, addr⟩)) ∧
    (set_blink d0 BlinkMode.Enable BlinkRate.Fast).2.i2c.log =
      [Txn.wrRd 0x60 [0x04] 8, Txn.wr 0x60 [0x04, 0x08],
       Txn.wrRd 0x60 [0x04] 8, Txn.wr 0x60 [0x04, 0x0C]] ∧
    getReg (set_blink d0 BlinkMode.Enable BlinkRate.Fast).2.i2c.regs 0x04 = 0x0C := by
  refine ⟨?_, rfl, rfl⟩
  intro ε regs log addr mode rate
  simp [set_blink, set_configuration_bit_ok, getReg_setReg_same, ConfigBitFlag.value]

/-- Claim C4: `powerup()` and `shutdown()` each perform one read-modify-write
cycle on bit 0 (Shutdown) of the Configuration register, powerup setting the
bit and shutdown clearing it; in particular from Configuration 0x00, powerup
reads 0x00 and writes 0x01, and a subsequent shutdown reads 0x01 and writes
0x00. -/
theorem powerup_shutdown_rmw :
    (∀ (ε : Type) (regs : List (Nat × Nat)) (log : List Txn) (addr : Nat),
      powerup (⟨⟨regs, log, [], []⟩, addr⟩ : Max6955 ε) =
        (Except.ok (),
          ⟨⟨setReg regs 0x04 (setBitPure (getReg regs 0x04) 0 true),
            log ++ [Txn.wrRd addr [0x04] 8,
              Txn.wr addr [0x04, setBitPure (getReg regs 0x04) 0 true]],
            [], []⟩, addr⟩) ∧
      shutdown (⟨⟨regs, log, [], []⟩, addr⟩ : Max6955 ε) =
        (Except.ok (),
          ⟨⟨setReg regs 0x04 (setBitPure (getReg regs 0x04) 0 false),
            log ++ [Txn.wrRd addr [0x04] 8,
              Txn.wr addr [0x04, setBitPure (getReg regs 0x04) 0 false]],
            [], []⟩, addr⟩)) ∧
    (powerup d0).2.i2c.log = [Txn.wrRd 0x60 [0x04] 8, Txn.wr 0x60 [0x04, 0x01]] ∧
    getReg (powerup d0).2.i2c.regs 0x04 = 0x01 ∧
    (shutdown (powerup d0).2).2.i2c.log =
      [Txn.wrRd 0x60 [0x04] 8, Txn.wr 0x60 [0x04, 0x01],
       Txn.wrRd 0x60 [0x04] 8, Txn.wr 0x60 [0x04, 0x00]] ∧
    getReg (shutdown (powerup d0).2).2.i2c.regs 0x04 = 0x00 := by
  refine ⟨?_, rfl, rfl, rfl, rfl⟩
  intro ε regs log addr
  constructor <;>
    simp [powerup, shutdown, set_configuration_bit_ok, ConfigBitFlag.value]

/-- Claim C5: `set_global_intensity(v)` issues exactly one bus write
transaction, with payload `[0x02, v]` (the intensity byte written as-is,
also above 15), addressed to the stored device address, and performs no
read: the transcript grows by exactly that one write transaction. -/
theorem set_global_intensity_single_write (d : Max6955 ε) (v : Nat) (_h : v < 256) :
    (set_global_intensity d v).2.i2c.log = d.i2c.log ++ [Txn.wr d.addr [0x02, v]] ∧
    (set_global_intensity d v).2.addr = d.addr := by
  rw [snd_set_global_intensity d v]
  unfold write_register
  rcases hw : simWrite d.i2c d.addr [Register.GlobalIntensity.addr, v] with ⟨r, s⟩
  have hlog := simWrite_log d.i2c d.addr [Register.GlobalIntensity.addr, v]
  rw [hw] at hlog
  cases r <;> exact ⟨hlog, rfl⟩

/-- Witness for C5 at the out-of-documented-range intensity value 200. -/
theorem set_global_intensity_single_write_witness :
    (200 : Nat) < 256 ∧
    ((set_global_intensity d0 200).2.i2c.log = d0.i2c.log ++ [Txn.wr d0.addr [0x02, 200]] ∧
     (set_global_intensity d0 200).2.addr = d0.addr) :=
  ⟨by decide, set_global_intensity_single_write d0 200 (by decide)⟩

/-- Claim C6: for every port in 0-4, `set_pin_mode(port, mode)` reads the
Port Configuration register (0x06), sets bit `port` (true for Input, false
for Output) leaving all other bits of the byte unchanged, and writes the
byte back; concretely, `set_pin_mode(2, Input)` from 0x00 writes back 0x04
and `set_pin_mode(2, Output)` from 0x04 writes back 0x00. -/
theorem set_pin_mode_rmw :
    (∀ (ε : Type) (regs : List (Nat × Nat)) (log : List Txn) (addr : Nat)
        (port : Nat) (pm : PinMode), port < 5 →
      set_pin_mode (⟨⟨regs, log, [], []⟩, addr⟩ : Max6955 ε) port pm =
        (Except.ok (),
          ⟨⟨setReg regs 0x06 (setBitPure (getReg regs 0x06) port (pinBit pm)),
            log ++ [Txn.wrRd addr [0x06] 8,
              Txn.wr addr [0x06, setBitPure (getReg regs 0x06) port (pinBit pm)]],
            [], []⟩, addr⟩) ∧
      Nat.testBit (setBitPure (getReg regs 0x06) port (pinBit pm)) port = pinBit pm ∧
      (∀ j, j < 8 → j ≠ port →
        Nat.testBit (setBitPure (getReg regs 0x06) port (pinBit pm)) j =
          Nat.testBit (getReg regs 0x06) j)) ∧
    (set_pin_mode d0 2 PinMode.Input).2.i2c.log =
      [Txn.wrRd 0x60 [0x06] 8, Txn.wr 0x60 [0x06, 0x04]] ∧
    (set_pin_mode dPort 2 PinMode.Output).2.i2c.log =
      [Txn.wrRd 0x60 [0x06] 8, Txn.wr 0x60 [0x06, 0x00]] := by
  refine ⟨?_, rfl, rfl⟩
  intro ε regs log addr port pm hp
  exact ⟨set_pin_mode_ok regs log addr port pm (by omega),
    setBitPure_testBit_self _ port _ (by omega),
    fun j hj hne => setBitPure_testBit_other _ port j _ hj hne⟩

/-- Witness for C6 at port 2, Input, on the all-zero device. -/
theorem set_pin_mode_rmw_witness :
    (2 : Nat) < 5 ∧
    (set_pin_mode (⟨⟨[], [], [], []⟩, 0x60⟩ : Max6955 Nat) 2 PinMode.Input =
      (Except.ok (),
        ⟨⟨setReg [] 0x06 (setBitPure (getReg [] 0x06) 2 (pinBit PinMode.Input)),
          [] ++ [Txn.wrRd 0x60 [0x06] 8,
            Txn.wr 0x60 [0x06, setBitPure (getReg [] 0x06) 2 (pinBit PinMode.Input)]],
          [], []⟩, 0x60⟩) ∧
     Nat.testBit (setBitPure (getReg [] 0x06) 2 (pinBit PinMode.Input)) 2 = pinBit PinMode.Input ∧
     (∀ j, j < 8 → j ≠ 2 →
       Nat.testBit (setBitPure (getReg [] 0x06) 2 (pinBit PinMode.Input)) j =
         Nat.testBit (getReg [] 0x06) j)) :=
  ⟨by decide, set_pin_mode_rmw.1 Nat [] [] 0x60 2 PinMode.Input (by decide)⟩

/-- Claim C7: for every read-modify-write operation (powerup, shutdown,
set_blink, set_pin_mode), when the bus read transaction fails with a
transport error `e`, the write of that cycle is never attempted (the
transcript grows by the read only and the register file is untouched) and
the error is returned to the caller unchanged (wrapped as the transport
error `DriverError.bus e`); sub-steps completed before the failure remain
applied, as in the final conjunct where `set_blink`'s first cycle succeeds,
its write stands in the register file, and the second read's failure aborts
before the second write. -/
theorem rmw_read_failure_aborts :
    ∀ (ε : Type) (regs : List (Nat × Nat)) (log : List Txn) (addr : Nat) (e : ε)
      (mode : BlinkMode) (rate : BlinkRate) (port : Nat) (pm : PinMode),
      powerup (⟨⟨regs, log, [some e], []⟩, addr⟩ : Max6955 ε) =
        (Except.error (DriverError.bus e),
          ⟨⟨regs, log ++ [Txn.wrRd addr [0x04] 8], [], []⟩, addr⟩) ∧
      shutdown (⟨⟨regs, log, [some e], []⟩, addr⟩ : Max6955 ε) =
        (Except.error (DriverError.bus e),
          ⟨⟨regs, log ++ [Txn.wrRd addr [0x04] 8], [], []⟩, addr⟩) ∧
      set_blink (⟨⟨regs, log, [some e], []⟩, addr⟩ : Max6955 ε) mode rate =
        (Except.error (DriverError.bus e),
          ⟨⟨regs, log ++ [Txn.wrRd addr [0x04] 8], [], []⟩, addr⟩) ∧
      set_pin_mode (⟨⟨regs, log, [some e], []⟩, addr⟩ : Max6955 ε) port pm =
        (Except.error (DriverError.bus e),
          ⟨⟨regs, log ++ [Txn.wrRd addr [0x06] 8], [], []⟩, addr⟩) ∧
      set_blink (⟨⟨regs, log, [none, some e], []⟩, addr⟩ : Max6955 ε) mode rate =
        (Except.error (DriverError.bus e),
          ⟨⟨setReg regs 0x04 (setBitPure (getReg regs 0x04) 3 mode.value),
            log ++ [Txn.wrRd addr [0x04] 8,
              Txn.wr addr [0x04, setBitPure (getReg regs 0x04) 3 mode.value],
              Txn.wrRd addr [0x04] 8],
            [], []⟩, addr⟩) := by
  intro ε regs log addr e mode rate port pm
  refine ⟨set_configuration_bit_fail regs log [] [] addr e ConfigBitFlag.Shutdown true,
    set_configuration_bit_fail regs log [] [] addr e ConfigBitFlag.Shutdown false,
    ?_, set_pin_mode_fail regs log [] [] addr e port pm, ?_⟩
  · simp [set_blink, set_configuration_bit_fail]
  · simp [set_blink, set_configuration_bit_ok2, set_configuration_bit_fail,
      ConfigBitFlag.value]

/-- Claim C8: `clear_display()` is `write_str` applied to the empty string
and issues exactly the single 9-byte write transaction
`[0x20, 0x20, ..., 0x20]` (the Digit0Plane0 address followed by eight
spaces) to the stored device address. -/
theorem clear_display_equiv (d : Max6955 ε) :
    clear_display d = write_str d [] ∧
    (clear_display d).2.i2c.log = d.i2c.log ++ [Txn.wr d.addr (List.replicate 9 0x20)] ∧
    (clear_display d).2.addr = d.addr := by
  obtain ⟨h1, h2⟩ := write_str_state d [] (List.replicate 9 0x20) rfl
  exact ⟨rfl, h1, h2⟩

/-- Claim C9 counterexample: at port 8 (a value greater than or equal to 5)
the operation does not complete the read-modify-write: after the read, the
bit_field `set_bit` assertion fires (a Rust panic), no write-back
transaction is issued, and no byte with bit 8 set is ever written. -/
theorem set_pin_mode_port8_counterexample :
    (set_pin_mode d0 8 PinMode.Input).1 = Except.error DriverError.panicked ∧
    (set_pin_mode d0 8 PinMode.Input).2.i2c.log = [Txn.wrRd 0x60 [0x06] 8] :=
  ⟨rfl, rfl⟩

/-- Claim C9 (amended): `set_pin_mode` performs no bounds check of its own,
so for ports 5-7 the read-modify-write completes and writes back a byte
whose bit `port` is set (Input) or cleared (Output), outside the documented
0-4 port range; but the operation is not total for all port values: for
port ≥ 8 the `set_bit` call of the bit_field crate asserts `port < 8` and
panics after the read, so no write-back occurs. -/
theorem set_pin_mode_out_of_range :
    ∀ (ε : Type) (regs : List (Nat × Nat)) (log : List Txn) (addr : Nat)
      (port : Nat) (pm : PinMode), 5 ≤ port →
      (port < 8 →
        set_pin_mode (⟨⟨regs, log, [], []⟩, addr⟩ : Max6955 ε) port pm =
          (Except.ok (),
            ⟨⟨setReg regs 0x06 (setBitPure (getReg regs 0x06) port (pinBit pm)),
              log ++ [Txn.wrRd addr [0x06] 8,
                Txn.wr addr [0x06, setBitPure (getReg regs 0x06) port (pinBit pm)]],
              [], []⟩, addr⟩) ∧
        Nat.testBit (setBitPure (getReg regs 0x06) port (pinBit pm)) port = pinBit pm) ∧
      (8 ≤ port →
        set_pin_mode (⟨⟨regs, log, [], []⟩, addr⟩ : Max6955 ε) port pm =
          (Except.error DriverError.panicked,
            ⟨⟨regs, log ++ [Txn.wrRd addr [0x06] 8], [], []⟩, addr⟩)) := by
  intro ε regs log addr port pm h5
  exact ⟨fun h8 => ⟨set_pin_mode_ok regs log addr port pm h8,
      setBitPure_testBit_self _ port _ h8⟩,
    fun h8 => set_pin_mode_oob regs log addr port pm h8⟩

/-- Witness for the amended C9 at port 5, Input, on the all-zero device. -/
theorem set_pin_mode_out_of_range_witness :
    (5 : Nat) ≤ 5 ∧
    (((5 : Nat) < 8 →
        set_pin_mode (⟨⟨[], [], [], []⟩, 0x60⟩ : Max6955 Nat) 5 PinMode.Input =
          (Except.ok (),
            ⟨⟨setReg [] 0x06 (setBitPure (getReg [] 0x06) 5 (pinBit PinMode.Input)),
              [] ++ [Txn.wrRd 0x60 [0x06] 8,
                Txn.wr 0x60 [0x06, setBitPure (getReg [] 0x06) 5 (pinBit PinMode.Input)]],
              [], []⟩, 0x60⟩) ∧
        Nat.testBit (setBitPure (getReg [] 0x06) 5 (pinBit PinMode.Input)) 5 =
          pinBit PinMode.Input) ∧
      ((8 : Nat) ≤ 5 →
        set_pin_mode (⟨⟨[], [], [], []⟩, 0x60⟩ : Max6955 Nat) 5 PinMode.Input =
          (Except.error DriverError.panicked,
            ⟨⟨[], [] ++ [Txn.wrRd 0x60 [0x06] 8], [], []⟩, 0x60⟩))) :=
  ⟨by decide, set_pin_mode_out_of_range Nat [] [] 0x60 5 PinMode.Input (by decide)⟩

/-- Claim C10: no public operation other than `set_address` modifies the
stored device address: each of the ten operations leaves the `addr` field
unchanged and extends the transcript only with transactions directed to
that stored address (the `FrameStep` relation). -/
theorem ops_preserve_address (d : Max6955 ε) (v : Nat) (mode : BlinkMode) (rate : BlinkRate)
    (ty : DigitType) (port : Nat) (pm : PinMode) (m : DecodeMode) (b : Bool)
    (text : List Char) :
    FrameStep d (set_global_intensity d v).2 ∧
    FrameStep d (set_blink d mode rate).2 ∧
    FrameStep d (powerup d).2 ∧
    FrameStep d (shutdown d).2 ∧
    FrameStep d (set_digit_type d ty).2 ∧
    FrameStep d (set_pin_mode d port pm).2 ∧
    FrameStep d (set_decode_mode d m).2 ∧
    FrameStep d (test d b).2 ∧
    FrameStep d (write_str d text).2 ∧
    FrameStep d (clear_display d).2 := by
  refine ⟨?_, frameStep_set_blink d mode rate,
    frameStep_set_configuration_bit d ConfigBitFlag.Shutdown true,
    frameStep_set_configuration_bit d ConfigBitFlag.Shutdown false,
    frameStep_write_register d Register.DigitType ty.value,
    frameStep_set_pin_mode d port pm,
    frameStep_write_register d Register.DecodeMode m.value,
    frameStep_test d b,
    frameStep_write_str d text,
    frameStep_write_str d []⟩
  rw [snd_set_global_intensity d v]
  exact frameStep_write_register d Register.GlobalIntensity v
